import Mathlib

/-!
Shallow embedding of `src/src/main.rs` of the task code-generator.

The embedded parts are:
* `DOC_METADATA_RE` (the documentation mini-grammar regex) as the function
  `docCaptures`, reproducing the leftmost-first capture semantics of the
  Rust `regex` crate on the concrete pattern
  `^\s*([^.]+?)\s*\.\s*([^.]+?)\s*\.(?:(?:\s*Default:\s*(.+?)\.?$)|(?:(.*?)(?:\.\s*Default:\s*(.+?))?\s*))\.?$`;
* `parse_input_documentation` (the typed-parameter derivation);
* `format_default_value` (the default literal formatter);
* `TASK_LINE_RE` / `INPUT_LINE_RE` and `parse_yaml_lines` (the structural
  line parser);
* the `heck` PascalCase transformation and Rust's `str::parse::<i32>`,
  `str::trim`, `str::lines`, `str::split` as used by the source.

Strings are modelled as `List Char`; machine integers only occur in the
`i32` range check, modelled on `Int`.
-/

namespace TaskCodegen

/-- The apostrophe character (`'`). -/
def squote : Char := Char.ofNat 39

/-- Whitespace as matched by the regex class `\s` and Rust's `str::trim`,
restricted to the ASCII range (space, tab, newline, carriage return,
vertical tab, form feed). -/
def isWsChar (c : Char) : Bool :=
  c = ' ' || c = '\t' || c = '\n' || c = '\r' || c = Char.ofNat 11 || c = Char.ofNat 12

/-- Drop leading whitespace (left part of Rust `str::trim`). -/
def trimL (s : List Char) : List Char := s.dropWhile isWsChar

/-- Drop trailing whitespace (right part of Rust `str::trim`). -/
def trimR (s : List Char) : List Char := (trimL s.reverse).reverse

/-- Rust `str::trim`: drop leading and trailing whitespace. -/
def trimC (s : List Char) : List Char := trimR (trimL s)

/-- Split a list at the first occurrence of `sep`; `none` when absent.
Used for the forced split points at the `\.` separators of the regex
(group 1 and group 2 are `[^.]+?` classes, so the dot they are followed by
is necessarily the first remaining dot). -/
def breakOn (sep : Char) : List Char → Option (List Char × List Char)
  | [] => none
  | c :: cs =>
    if c = sep then some ([], cs)
    else
      match breakOn sep cs with
      | some (pre, post) => some (c :: pre, post)
      | none => none

/-- Match a literal (first argument) as a prefix of the second, returning
the remainder. -/
def dropLit : List Char → List Char → Option (List Char)
  | [], s => some s
  | _ :: _, [] => none
  | c :: cs, d :: ds => if c = d then dropLit cs ds else none

/-- Whether `l` starts with the literal `pre` (Rust `str::starts_with`). -/
def hasPre (pre l : List Char) : Bool := (dropLit pre l).isSome

/-- The literal `Default:` of the documentation regex. -/
def litDefault : List Char := "Default:".data

/-- Tail pattern `\s*\.?$` : the remainder is whitespace optionally followed by one
final dot. -/
def wsThenOptDot (q : List Char) : Bool :=
  let w := q.dropWhile isWsChar
  w = [] || w = ['.']

/-- The last character of an all-whitespace run that a backtracking `\s*`
can yield to a following `(.+?)`; `.` does not match a newline, so a
trailing newline run makes the group fail (group-5 position, where the
tail `\s*\.?$` may absorb remaining whitespace). -/
def lastNonNl : List Char → Option Char
  | [] => none
  | c :: cs =>
    match lastNonNl cs with
    | some d => some d
    | none => if c = '\n' then none else some c

/-- Capture of `(.+?)\.?$` on a nonempty input (group 3 of the regex):
the lazy group stops at the earliest point where the remainder is empty or
a single final dot, i.e. one trailing dot is stripped when the input has
length at least 2; the group itself cannot contain a newline. -/
def lazyValue (t : List Char) : Option (List Char) :=
  if t = [] then none
  else
    let v := if 2 ≤ t.length && t.getLast? = some '.' then t.dropLast else t
    if v.any (· = '\n') then none else some v

/-- Capture of `(.+?)` followed by `\s*\.?$` (group 5 of the regex): the
smallest nonempty newline-free prefix whose complement is whitespace
optionally followed by one final dot. -/
def lazyVal5 : List Char → Option (List Char)
  | [] => none
  | c :: cs =>
    if c = '\n' then none
    else if wsThenOptDot cs then some [c]
    else
      match lazyVal5 cs with
      | some v => some (c :: v)
      | none => none

/-- Branch A of the final alternation: `\s*Default:\s*(.+?)\.?$`.
Returns group 3 on success.  When everything after `Default:` is
whitespace, the greedy `\s*` backtracks exactly one character into the
lazy group, which succeeds only if that character is not a newline. -/
def matchBranchA (r : List Char) : Option (List Char) :=
  match dropLit litDefault (r.dropWhile isWsChar) with
  | none => none
  | some r2 =>
    let r3 := r2.dropWhile isWsChar
    if r3 = [] then
      match r2.getLast? with
      | some c => if c = '\n' then none else some [c]
      | none => none
    else lazyValue r3

/-- The optional inner group of branch B: `\.\s*Default:\s*(.+?)` with the
tail `\s*\.?$` of the branch.  Returns group 5 on success.  In the
all-whitespace backtracking case the group takes the last non-newline
whitespace character (the tail `\s*` absorbs the rest). -/
def matchDotDefault (q : List Char) : Option (List Char) :=
  match q with
  | '.' :: q1 =>
    (dropLit litDefault (q1.dropWhile isWsChar)).bind fun q3 =>
      let q4 := q3.dropWhile isWsChar
      if q4 = [] then (lastNonNl q3).map (fun c => [c])
      else lazyVal5 q4
  | _ => none

/-- Branch B of the final alternation: `(.*?)(?:\.\s*Default:\s*(.+?))?\s*`
followed by the overall tail `\.?$`.  The lazy group 4 grows from the left;
at each position the optional `Default` group (present-first) is tried
before the absent alternative, and group 4 cannot cross a newline.
Returns `(group4, group5?)`. -/
def branchBAux (acc : List Char) : List Char → Option (List Char × Option (List Char))
  | [] => some (acc.reverse, none)
  | c :: cs =>
    match matchDotDefault (c :: cs) with
    | some g5 => some (acc.reverse, some g5)
    | none =>
      if wsThenOptDot (c :: cs) then some (acc.reverse, none)
      else if c = '\n' then none
      else branchBAux (c :: acc) cs

/-- Branch B entry point. -/
def matchBranchB (r : List Char) : Option (List Char × Option (List Char)) :=
  branchBAux [] r

/-- The capture groups of `DOC_METADATA_RE`.  `g1`/`g2` hold the raw text
between the separator dots (their surrounding whitespace is irrelevant
because every consumer trims them, exactly as the `\s*`-bracketed lazy
groups of the pattern do on non-blank segments). -/
structure DocCaps where
  g1 : List Char
  g2 : List Char
  g3 : Option (List Char)
  g4 : Option (List Char)
  g5 : Option (List Char)
deriving Repr, DecidableEq

/-- Embedding of a successful `DOC_METADATA_RE.captures(documentation)`:
two nonempty dot-terminated segments, then branch A (`Default:` directly
after the second dot) tried before branch B (description with optional
trailing `Default:`). -/
def docCaptures (doc : List Char) : Option DocCaps :=
  match breakOn '.' doc with
  | none => none
  | some (seg1, rest1) =>
    if seg1 = [] then none
    else
      match breakOn '.' rest1 with
      | none => none
      | some (seg2, rest2) =>
        if seg2 = [] then none
        else
          match matchBranchA rest2 with
          | some g3 => some ⟨seg1, seg2, some g3, none, none⟩
          | none =>
            match matchBranchB rest2 with
            | some (g4, g5) => some ⟨seg1, seg2, none, some g4, g5⟩
            | none => none

/-! ## The `heck::ToPascalCase` transformation -/

/-- Rust `char::is_alphanumeric`, ASCII range. -/
def isAlnum (c : Char) : Bool := c.isAlpha || c.isDigit

/-- Maximal alphanumeric runs of a string (`heck` drops every
non-alphanumeric character as a word boundary). -/
def splitRunsAux (acc : List Char) : List Char → List (List Char)
  | [] => if acc = [] then [] else [acc.reverse]
  | c :: cs =>
    if isAlnum c then splitRunsAux (c :: acc) cs
    else if acc = [] then splitRunsAux [] cs
    else acc.reverse :: splitRunsAux [] cs

/-- Word boundaries inside an alphanumeric run, as `heck` finds them:
before an uppercase letter that follows a lowercase one, and before the
last uppercase letter of an uppercase run that is followed by a lowercase
letter. -/
def camelSplitAux (acc : List Char) : List Char → List (List Char)
  | [] => [acc.reverse]
  | c :: cs =>
    match acc with
    | [] => camelSplitAux [c] cs
    | p :: _ =>
      if p.isLower && c.isUpper then acc.reverse :: camelSplitAux [c] cs
      else if p.isUpper && c.isUpper then
        match cs with
        | d :: _ =>
          if d.isLower then acc.reverse :: camelSplitAux [c] cs
          else camelSplitAux (c :: acc) cs
        | [] => camelSplitAux (c :: acc) cs
      else camelSplitAux (c :: acc) cs

/-- The `heck` capitalization of one word: first character uppercased, the
rest lowercased. -/
def capWord : List Char → List Char
  | [] => []
  | c :: cs => c.toUpper :: cs.map Char.toLower

/-- Embedding of `heck::ToPascalCase` (`UpperCamelCase`): split into words, capitalize
each, concatenate. -/
def toPascalCase (s : List Char) : List Char :=
  (((splitRunsAux [] s).map (camelSplitAux [])).flatten.map capWord).flatten

/-- The `String`-level PascalCase (`yaml_name.to_pascal_case()`). -/
def toPascalCaseStr (s : String) : String := (toPascalCase s.data).asString

/-! ## Rust `str::parse::<i32>` -/

/-- The optional leading sign of `str::parse::<i32>`: negativity flag and
remaining digit characters. -/
def signSplit (s : List Char) : Bool × List Char :=
  match s with
  | [] => (false, [])
  | c :: t =>
    if c = '+' then (false, t)
    else if c = '-' then (true, t)
    else (false, c :: t)

/-- Whether a string has the shape accepted by `str::parse::<i32>` apart
from the range check: an optional sign then one or more ASCII digits. -/
def isNumeralShape (s : List Char) : Bool :=
  !((signSplit s).2 = []) && (signSplit s).2.all Char.isDigit

/-- The mathematical value denoted by a numeral of `isNumeralShape`. -/
def numeralVal (s : List Char) : Int :=
  let n : Int := ((signSplit s).2.foldl (fun a c => a * 10 + (c.toNat - 48)) 0 : Nat)
  if (signSplit s).1 then -n else n

/-- Rust `str::parse::<i32>`: an optional sign, then one or more ASCII
digits, value within `[-2147483648, 2147483647]`. -/
def parseI32 (s : List Char) : Option Int :=
  if !isNumeralShape s then none
  else if -2147483648 ≤ numeralVal s && numeralVal s ≤ 2147483647 then some (numeralVal s)
  else none

/-! ## The `format_default_value` formatter -/

/-- Rust `value.replace('"', "\\\"")`: escape embedded double quotes. -/
def escapeDq : List Char → List Char
  | [] => []
  | c :: cs => if c = '"' then '\\' :: '"' :: escapeDq cs else c :: escapeDq cs

/-- The quoted-string rendering of the `"string"` arm of
`format_default_value`. -/
def quoteLit (v : String) : String := "\"" ++ (escapeDq v.data).asString ++ "\""

/-- Rust `str::to_lowercase`, ASCII range. -/
def toLowerStr (s : String) : String := (s.data.map Char.toLower).asString

/-- Rust `value.trim_matches('\'')`: strip every leading and trailing
apostrophe. -/
def trimSq (s : List Char) : List Char :=
  ((s.dropWhile (· = squote)).reverse.dropWhile (· = squote)).reverse

/-- Embedding of `format_default_value(value, base_type, is_enum)`:
four special-cased raw values are always rendered as their quoted string
literal; otherwise a `match` on the base type (string → quoted/escaped,
bool → lowercased, enum flag → `Base.PascalMember`, anything else →
unchanged). -/
def format_default_value (value base_type : String) (is_enum : Bool) : String :=
  if value = "$(BuildConfiguration)" then "\"$(BuildConfiguration)\""
  else if value = "$(Build.ArtifactStagingDirectory)/*.nupkg" then
    "\"$(Build.ArtifactStagingDirectory)/*.nupkg\""
  else if value = "**/*.csproj" then "\"**/*.csproj\""
  else if value = "$(Build.ArtifactStagingDirectory)" then
    "\"$(Build.ArtifactStagingDirectory)\""
  else if base_type = "string" then quoteLit value
  else if base_type = "bool" then toLowerStr value
  else if is_enum then base_type ++ "." ++ toPascalCaseStr (trimSq value.data).asString
  else value

/-! ## The `parse_input_documentation` core

The body of the Rust closure is a chain of `let` bindings over the
captures; each binding is hoisted to a named definition below, and
`buildParam` assembles the record exactly as the closure does. -/

/-- Capture `caps.get(1) … .trim()`. -/
def typeOptionsOf (caps : DocCaps) : String := (trimC caps.g1).asString

/-- Capture `caps.get(2) … .trim()`. -/
def requiredStatusOf (caps : DocCaps) : String := (trimC caps.g2).asString

/-- Capture `caps.get(4).map_or("", …).trim()`. -/
def descriptionOf (caps : DocCaps) : String := (trimC (caps.g4.getD [])).asString

/-- Capture `caps.get(3).or_else(|| caps.get(5)).map(|m| m.as_str().trim())`. -/
def defaultValueOf (caps : DocCaps) : Option String :=
  match caps.g3 with
  | some v => some (trimC v).asString
  | none => caps.g5.map (fun v => (trimC v).asString)

/-- The synthesized placeholder description when a default was captured
without any description text. -/
def finalDescriptionOf (yaml_name : String) (caps : DocCaps) : String :=
  if descriptionOf caps == "" && (defaultValueOf caps).isSome then
    "Details for " ++ yaml_name
  else descriptionOf caps

/-- Test `type_options.contains('|') && type_options.starts_with('\'')`. -/
def isEnumType (caps : DocCaps) : Bool :=
  (typeOptionsOf caps).data.any (· = '|') && (typeOptionsOf caps).data.head? = some squote

/-- Rust `str::split(sep)`: every separator produces a boundary, empty
pieces included. -/
def splitOn (sep : Char) : List Char → List (List Char)
  | [] => [[]]
  | c :: cs =>
    if c = sep then [] :: splitOn sep cs
    else
      match splitOn sep cs with
      | t :: ts => (c :: t) :: ts
      | [] => [[c]]

/-- Rendering `type_options.split('|').map(|s| s.trim().replace('\'', "")).collect()`
when the enum shape is detected. -/
def enumOptionsOf (caps : DocCaps) : Option (List String) :=
  if isEnumType caps then
    some ((splitOn '|' (typeOptionsOf caps).data).map
      (fun t => ((trimC t).filter (fun c => !(c = squote))).asString))
  else none

/-- The `base_csharp_type` chain: enum shape first (type named after the
PascalCase property name), then the `"boolean"` literal, then `"string"`
with int-sniffing of the default value, any other literal falling back to
`"string"`. -/
def baseTypeOf (yaml_name : String) (caps : DocCaps) : String :=
  if isEnumType caps then toPascalCaseStr yaml_name
  else if typeOptionsOf caps = "boolean" then "bool"
  else if typeOptionsOf caps = "string" then
    match defaultValueOf caps with
    | some d => if (parseI32 d.data).isSome then "int" else "string"
    | none => "string"
  else "string"

/-- The nullability rule:
`(is_optional || is_conditionally_required || base == "string") && default.is_none()`
with `is_optional` an exact match on `"Optional"` and conditional an
`starts_with("Required when")` test. -/
def isNullableOf (yaml_name : String) (caps : DocCaps) : Bool :=
  (requiredStatusOf caps == "Optional"
      || hasPre "Required when".data (requiredStatusOf caps).data
      || baseTypeOf yaml_name caps == "string")
    && (defaultValueOf caps).isNone

/-- Field `getter_default_arg`: present exactly when non-nullable and a default
was captured, rendered by `format_default_value`. -/
def getterDefaultOf (yaml_name : String) (caps : DocCaps) : Option String :=
  if !(isNullableOf yaml_name caps) && (defaultValueOf caps).isSome then
    some (format_default_value ((defaultValueOf caps).getD "")
      (baseTypeOf yaml_name caps) (enumOptionsOf caps).isSome)
  else none

/-- The record built by the Rust closure (`ProcessedParameter`). -/
structure ProcessedParameter where
  yaml_name : String
  csharp_name : String
  description : String
  csharp_type : String
  enum_options : Option (List String)
  is_nullable : Bool
  getter_default_arg : Option String
  base_csharp_type : String
deriving Repr, DecidableEq

/-- Assembly of the `ProcessedParameter` from the captures. -/
def buildParam (yaml_name : String) (caps : DocCaps) : ProcessedParameter :=
  { yaml_name := yaml_name
    csharp_name := toPascalCaseStr yaml_name
    description := finalDescriptionOf yaml_name caps
    csharp_type :=
      if isNullableOf yaml_name caps then baseTypeOf yaml_name caps ++ "?"
      else baseTypeOf yaml_name caps
    enum_options := enumOptionsOf caps
    is_nullable := isNullableOf yaml_name caps
    getter_default_arg := getterDefaultOf yaml_name caps
    base_csharp_type := baseTypeOf yaml_name caps }

/-- Embedding of `parse_input_documentation(yaml_name, documentation)`: the regex
captures fed to a closure that always returns `Some` (`and_then` with a
total closure, i.e. `map`). -/
def parse_input_documentation (yaml_name documentation : String) :
    Option ProcessedParameter :=
  (docCaptures documentation.data).map (buildParam yaml_name)

/-! ## The `parse_yaml_lines` structural parser -/

/-- Rust `str::lines`: split on `'\n'`, drop the empty piece produced by a
trailing newline, strip one trailing `'\r'` per line; the empty string has
no lines. -/
def rustLines (s : List Char) : List (List Char) :=
  if s = [] then []
  else
    let parts := splitOn '\n' s
    let parts2 := if s.getLast? = some '\n' then parts.dropLast else parts
    parts2.map (fun l => if l.getLast? = some '\r' then l.dropLast else l)

/-- Step `line.trim().strip_prefix('#')` of the summary rule (Rule 2). -/
def stripHashComment (l : List Char) : Option (List Char) :=
  match trimC l with
  | '#' :: t => some t
  | _ => none

/-- The regex class `\w`, ASCII range. -/
def isWordChar (c : Char) : Bool := c.isAlpha || c.isDigit || c = '_'

/-- Embedding of `TASK_LINE_RE`: `^- task:\s*(?<TaskName>\w+)@(?<TaskVersion>\d+)$`
applied to a trimmed line; returns the name and version captures. -/
def matchTaskLine (l : List Char) : Option (List Char × List Char) :=
  (dropLit "- task:".data l).bind fun r1 =>
    let r2 := r1.dropWhile isWsChar
    let name := r2.takeWhile isWordChar
    if name = [] then none
    else
      match r2.dropWhile isWordChar with
      | '@' :: ver =>
        if !(ver = []) && ver.all Char.isDigit then some (name, ver) else none
      | _ => none

/-- The tail after the first `'#'` of a list, if any (the `.*?#` part of
`INPUT_LINE_RE`, a lazy skip up to the documentation marker). -/
def afterFirstHash : List Char → Option (List Char)
  | [] => none
  | c :: cs => if c = '#' then some cs else afterFirstHash cs

/-- Embedding of `INPUT_LINE_RE`:
`^ {3,}(?:#\s*)?(?<InputName>\w+):\s*.*?#\s*(?<Documentation>.*)$`.
Three or more literal spaces, an optional comment marker with trailing
whitespace, a word-character name, a colon, a lazy skip to the first `#`,
then the documentation with its leading whitespace absorbed by `\s*`. -/
def matchInputLine (l : List Char) : Option (List Char × List Char) :=
  if (l.takeWhile (· = ' ')).length < 3 then none
  else
    let r1 := l.dropWhile (· = ' ')
    let r2 :=
      match r1 with
      | '#' :: t => t.dropWhile isWsChar
      | _ => r1
    let name := r2.takeWhile isWordChar
    if name = [] then none
    else
      match r2.dropWhile isWordChar with
      | ':' :: r4 => (afterFirstHash r4).map (fun post => (name, post.dropWhile isWsChar))
      | _ => none

/-- Rule 4 loop: every remaining line matching `INPUT_LINE_RE` is handed to
`parse_input_documentation` (with the documentation trimmed); failures are
skipped, order is preserved. -/
def collectParams : List (List Char) → List ProcessedParameter
  | [] => []
  | l :: ls =>
    match matchInputLine l with
    | some nd =>
      match parse_input_documentation nd.1.asString (trimC nd.2).asString with
      | some p => p :: collectParams ls
      | none => collectParams ls
    | none => collectParams ls

/-- Rules 3 and 4: the task identity line (defaults on mismatch) and the
parameter lines; an exhausted iterator keeps the default identity with no
parameters. -/
def parseTaskAndInputs : List (List Char) → String × String × List ProcessedParameter
  | [] => ("UnknownTask", "0", [])
  | l2 :: rest2 =>
    let nv :=
      match matchTaskLine (trimC l2) with
      | some p => (p.1.asString, p.2.asString)
      | none => ("UnknownTask", "0")
    (nv.1, nv.2, collectParams rest2)

/-- The result record of `parse_yaml_lines` (`ParsedTaskInfo`). -/
structure ParsedTaskInfo where
  task_summary : String
  task_name : String
  task_version : String
  parameters : List ProcessedParameter
deriving Repr, DecidableEq

/-- Embedding of `parse_yaml_lines`: line 0 discarded; a missing line 1
returns the all-placeholder record; a present line 1 sets the summary when
it is a `#` comment (placeholder `"N/A"` otherwise, parsing continues);
the remaining lines feed `parseTaskAndInputs`.  The Rust function only
ever returns `Ok`, so the embedding is total. -/
def parse_yaml_lines (yaml_text : String) : ParsedTaskInfo :=
  match rustLines yaml_text.data with
  | [] => ⟨"N/A", "UnknownTask", "0", []⟩
  | [_] => ⟨"N/A", "UnknownTask", "0", []⟩
  | _ :: l1 :: rest =>
    let summary :=
      match stripHashComment l1 with
      | some t => (trimC t).asString
      | none => "N/A"
    let r := parseTaskAndInputs rest
    ⟨summary, r.1, r.2.1, r.2.2⟩

/-! ## Helper lemmas -/

theorem parse_some_eq {yaml_name d : String} {caps : DocCaps} {p : ProcessedParameter}
    (hc : docCaptures d.data = some caps)
    (hp : parse_input_documentation yaml_name d = some p) :
    p = buildParam yaml_name caps := by
  simp only [parse_input_documentation, hc, Option.map_some', Option.some.injEq] at hp
  exact hp.symm

theorem buildParam_is_nullable (n : String) (c : DocCaps) :
    (buildParam n c).is_nullable = isNullableOf n c := rfl

theorem buildParam_base (n : String) (c : DocCaps) :
    (buildParam n c).base_csharp_type = baseTypeOf n c := rfl

theorem buildParam_enum (n : String) (c : DocCaps) :
    (buildParam n c).enum_options = enumOptionsOf c := rfl

theorem buildParam_getter (n : String) (c : DocCaps) :
    (buildParam n c).getter_default_arg = getterDefaultOf n c := rfl

/-! ## Claims -/

/-- C3: the documentation annotation parser returns a descriptor (`some`)
for every documentation string matched by the three-segment grammar
(`docCaptures`), and returns no descriptor at all (`none`, never a partial
descriptor) exactly when the documentation does not match that grammar. -/
theorem c3_parser_total_iff_grammar (yaml_name d : String) :
    (parse_input_documentation yaml_name d).isSome = (docCaptures d.data).isSome := by
  rw [parse_input_documentation]
  cases docCaptures d.data <;> rfl

/-- C7: each of the four special-cased raw default values is formatted to
the quoted string literal of that exact text, for every base type and
every value of the enum flag. -/
theorem c7_special_default_table (base_type : String) (is_enum : Bool) :
    format_default_value "$(BuildConfiguration)" base_type is_enum
        = "\"$(BuildConfiguration)\"" ∧
      format_default_value "$(Build.ArtifactStagingDirectory)/*.nupkg" base_type is_enum
        = "\"$(Build.ArtifactStagingDirectory)/*.nupkg\"" ∧
      format_default_value "**/*.csproj" base_type is_enum
        = "\"**/*.csproj\"" ∧
      format_default_value "$(Build.ArtifactStagingDirectory)" base_type is_enum
        = "\"$(Build.ArtifactStagingDirectory)\"" := by
  exact ⟨rfl, rfl, rfl, rfl⟩

/-- The captures of `"string . Required . Name with no default."`. -/
def capsReqStr : DocCaps :=
  ⟨"string ".data, " Required ".data, none, some " Name with no default".data, none⟩

/-- The captures of `"string . Optional . Timeout in seconds. Default: 30."`. -/
def capsTimeout : DocCaps :=
  ⟨"string ".data, " Optional ".data, none, some " Timeout in seconds".data, some "30".data⟩

/-- C1: for every documentation string accepted by the parser, the
resulting parameter is nullable exactly when (its required status is
classified optional-like, i.e. `"Optional"`, OR conditional, i.e. starts
with `"Required when"`, OR its base type is string) AND no default value
string was captured; in particular a required boolean with no default is
not nullable, while a required string with no default is nullable. -/
theorem c1_nullability_rule (yaml_name d : String) (caps : DocCaps) (p : ProcessedParameter)
    (hc : docCaptures d.data = some caps)
    (hp : parse_input_documentation yaml_name d = some p) :
    (p.is_nullable = true ↔
        ((requiredStatusOf caps = "Optional"
            ∨ hasPre "Required when".data (requiredStatusOf caps).data = true
            ∨ p.base_csharp_type = "string")
          ∧ defaultValueOf caps = none)) ∧
      (parse_input_documentation "flag" "boolean . Required . Flag with no default.").map
          ProcessedParameter.is_nullable = some false ∧
      (parse_input_documentation "name" "string . Required . Name with no default.").map
          ProcessedParameter.is_nullable = some true := by
  refine ⟨?_, by decide, by decide⟩
  obtain rfl := parse_some_eq hc hp
  rw [buildParam_is_nullable, buildParam_base, isNullableOf]
  simp only [Bool.and_eq_true, Bool.or_eq_true, beq_iff_eq, Option.isNone_iff_eq_none]
  rw [or_assoc]

/-- Witness for C1 at `"string . Required . Name with no default."`. -/
theorem c1_nullability_rule_witness :
    (docCaptures ("string . Required . Name with no default.").data = some capsReqStr ∧
        parse_input_documentation "name2" "string . Required . Name with no default."
          = some (buildParam "name2" capsReqStr)) ∧
      ((buildParam "name2" capsReqStr).is_nullable = true ↔
          ((requiredStatusOf capsReqStr = "Optional"
              ∨ hasPre "Required when".data (requiredStatusOf capsReqStr).data = true
              ∨ (buildParam "name2" capsReqStr).base_csharp_type = "string")
            ∧ defaultValueOf capsReqStr = none)) ∧
      (parse_input_documentation "flag" "boolean . Required . Flag with no default.").map
          ProcessedParameter.is_nullable = some false ∧
      (parse_input_documentation "name" "string . Required . Name with no default.").map
          ProcessedParameter.is_nullable = some true :=
  ⟨⟨by decide, by decide⟩,
    c1_nullability_rule "name2" "string . Required . Name with no default."
      capsReqStr (buildParam "name2" capsReqStr) (by decide) (by decide)⟩

/-- C2: for every documentation string whose first segment resolves to
`string`, a present default value that fully parses as a base-10 `i32`
integer upgrades the base type to `int` (the `Timeout … Default: 30.`
example yields base type `int`, non-nullable, default literal `30`); a
non-parsing default keeps `string` (the `Default: foo.` example); and with
no default present no upgrade ever occurs. -/
theorem c2_int_sniffing (yaml_name d : String) (caps : DocCaps) (p : ProcessedParameter)
    (hc : docCaptures d.data = some caps)
    (hp : parse_input_documentation yaml_name d = some p)
    (ht : typeOptionsOf caps = "string") :
    (∀ dv : String, defaultValueOf caps = some dv →
        p.base_csharp_type = (if (parseI32 dv.data).isSome then "int" else "string")) ∧
      (defaultValueOf caps = none → p.base_csharp_type = "string") ∧
      parse_input_documentation "timeout" "string . Optional . Timeout in seconds. Default: 30."
        = some ⟨"timeout", "Timeout", "Timeout in seconds", "int", none, false, some "30", "int"⟩ ∧
      parse_input_documentation "name" "string . Optional . Name. Default: foo."
        = some ⟨"name", "Name", "Name", "string", none, false, some "\"foo\"", "string"⟩ := by
  obtain rfl := parse_some_eq hc hp
  have he : isEnumType caps = false := by rw [isEnumType, ht]; decide
  refine ⟨?_, ?_, by decide, by decide⟩
  · intro dv hdv
    rw [buildParam_base, baseTypeOf, he, ht, hdv]
    simp
  · intro hdv
    rw [buildParam_base, baseTypeOf, he, ht, hdv]
    simp

/-- Witness for C2 at `"string . Optional . Timeout in seconds. Default: 30."`. -/
theorem c2_int_sniffing_witness :
    (docCaptures ("string . Optional . Timeout in seconds. Default: 30.").data = some capsTimeout ∧
        parse_input_documentation "timeout" "string . Optional . Timeout in seconds. Default: 30."
          = some (buildParam "timeout" capsTimeout) ∧
        typeOptionsOf capsTimeout = "string") ∧
      (∀ dv : String, defaultValueOf capsTimeout = some dv →
          (buildParam "timeout" capsTimeout).base_csharp_type
            = (if (parseI32 dv.data).isSome then "int" else "string")) ∧
      (defaultValueOf capsTimeout = none
          → (buildParam "timeout" capsTimeout).base_csharp_type = "string") ∧
      parse_input_documentation "timeout" "string . Optional . Timeout in seconds. Default: 30."
        = some ⟨"timeout", "Timeout", "Timeout in seconds", "int", none, false, some "30", "int"⟩ ∧
      parse_input_documentation "name" "string . Optional . Name. Default: foo."
        = some ⟨"name", "Name", "Name", "string", none, false, some "\"foo\"", "string"⟩ :=
  ⟨⟨by decide, by decide, by decide⟩,
    c2_int_sniffing "timeout" "string . Optional . Timeout in seconds. Default: 30."
      capsTimeout (buildParam "timeout" capsTimeout) (by decide) (by decide) (by decide)⟩

/-- The captures of the enum example documentation string. -/
def capsEnum : DocCaps :=
  ⟨"'ci' | 'install' | 'ci, install' ".data, " Optional ".data, none,
    some " npm command to run".data, some "install".data⟩

/-- C4: when the first documentation segment contains `|` and begins with a
quote character, the parameter becomes an enum whose ordered options are
the tokens split on `|`, trimmed, with their quote characters removed; the
spec's example yields options `["ci", "install", "ci, install"]` and a
default literal `Command.Install` (of the `<EnumName>.Install` shape, the
enum type being named after the parameter). -/
theorem c4_enum_options (yaml_name d : String) (caps : DocCaps) (p : ProcessedParameter)
    (hc : docCaptures d.data = some caps)
    (hp : parse_input_documentation yaml_name d = some p)
    (henum : isEnumType caps = true) :
    p.enum_options
        = some ((splitOn '|' (typeOptionsOf caps).data).map
          (fun t => ((trimC t).filter (fun c => !(c = squote))).asString)) ∧
      parse_input_documentation "command"
          "'ci' | 'install' | 'ci, install' . Optional . npm command to run. Default: install."
        = some ⟨"command", "Command", "npm command to run", "Command",
            some ["ci", "install", "ci, install"], false, some "Command.Install", "Command"⟩ := by
  obtain rfl := parse_some_eq hc hp
  refine ⟨?_, by decide⟩
  rw [buildParam_enum, enumOptionsOf, if_pos henum]

/-- Witness for C4 at the spec's enum example string. -/
theorem c4_enum_options_witness :
    (docCaptures
          ("'ci' | 'install' | 'ci, install' . Optional . npm command to run. Default: install.").data
        = some capsEnum ∧
        parse_input_documentation "command"
            "'ci' | 'install' | 'ci, install' . Optional . npm command to run. Default: install."
          = some (buildParam "command" capsEnum) ∧
        isEnumType capsEnum = true) ∧
      (buildParam "command" capsEnum).enum_options
        = some ((splitOn '|' (typeOptionsOf capsEnum).data).map
          (fun t => ((trimC t).filter (fun c => !(c = squote))).asString)) ∧
      parse_input_documentation "command"
          "'ci' | 'install' | 'ci, install' . Optional . npm command to run. Default: install."
        = some ⟨"command", "Command", "npm command to run", "Command",
            some ["ci", "install", "ci, install"], false, some "Command.Install", "Command"⟩ :=
  ⟨⟨by decide, by decide, by decide⟩,
    c4_enum_options "command"
      "'ci' | 'install' | 'ci, install' . Optional . npm command to run. Default: install."
      capsEnum (buildParam "command" capsEnum) (by decide) (by decide) (by decide)⟩

/-- The captures of `"boolean . optional . Some flag."`. -/
def capsLowerOpt : DocCaps :=
  ⟨"boolean ".data, " optional ".data, none, some " Some flag".data, none⟩

/-- Counterexample to C5: the second segment `optional` (lowercase, hence
"some other text") with base type `bool` and no default yields a parameter
that is NOT nullable, contradicting "nullable regardless of base type":
only the exact `"Optional"` literal is classified optional-like. -/
theorem c5_counterexample :
    (parse_input_documentation "flag" "boolean . optional . Some flag.").map
      ProcessedParameter.is_nullable = some false := by decide

/-- C5 (amended): the second segment is classified required only when
exactly `"Required"`, conditional when it starts with `"Required when"`,
and optional-like only when exactly `"Optional"`; for any other text the
parameter is none of these, and with no default it is nullable exactly
when its base type is string. -/
theorem c5_amended_other_status (yaml_name d : String) (caps : DocCaps) (p : ProcessedParameter)
    (hc : docCaptures d.data = some caps)
    (hp : parse_input_documentation yaml_name d = some p)
    (h1 : ¬ requiredStatusOf caps = "Optional")
    (h2 : hasPre "Required when".data (requiredStatusOf caps).data = false)
    (hd : defaultValueOf caps = none) :
    p.is_nullable = true ↔ p.base_csharp_type = "string" := by
  obtain rfl := parse_some_eq hc hp
  rw [buildParam_is_nullable, buildParam_base, isNullableOf, h2, hd]
  simp [h1]

/-- Witness for the amended C5 at `"boolean . optional . Some flag."`. -/
theorem c5_amended_other_status_witness :
    (docCaptures ("boolean . optional . Some flag.").data = some capsLowerOpt ∧
        parse_input_documentation "flag" "boolean . optional . Some flag."
          = some (buildParam "flag" capsLowerOpt) ∧
        ¬ requiredStatusOf capsLowerOpt = "Optional" ∧
        hasPre "Required when".data (requiredStatusOf capsLowerOpt).data = false ∧
        defaultValueOf capsLowerOpt = none) ∧
      ((buildParam "flag" capsLowerOpt).is_nullable = true ↔
        (buildParam "flag" capsLowerOpt).base_csharp_type = "string") :=
  ⟨⟨by decide, by decide, by decide, by decide, by decide⟩,
    c5_amended_other_status "flag" "boolean . optional . Some flag."
      capsLowerOpt (buildParam "flag" capsLowerOpt)
      (by decide) (by decide) (by decide) (by decide) (by decide)⟩

/-- The captures of `"string . Optional . Name. Default: foo."`. -/
def capsNameFoo : DocCaps :=
  ⟨"string ".data, " Optional ".data, none, some " Name".data, some "foo".data⟩

/-- C9: for every descriptor produced by the documentation annotation
parser, a formatted default literal is present only when the parameter is
non-nullable and a default value string was captured. -/
theorem c9_default_literal_invariant (yaml_name d : String) (caps : DocCaps)
    (p : ProcessedParameter)
    (hc : docCaptures d.data = some caps)
    (hp : parse_input_documentation yaml_name d = some p)
    (hg : p.getter_default_arg.isSome = true) :
    p.is_nullable = false ∧ (defaultValueOf caps).isSome = true := by
  obtain rfl := parse_some_eq hc hp
  rw [buildParam_getter, getterDefaultOf] at hg
  rw [buildParam_is_nullable]
  by_cases h : (!(isNullableOf yaml_name caps) && (defaultValueOf caps).isSome) = true
  · simp only [Bool.and_eq_true, Bool.not_eq_true'] at h
    exact h
  · rw [if_neg h] at hg
    simp at hg

/-- Witness for C9 at `"string . Optional . Name. Default: foo."`. -/
theorem c9_default_literal_invariant_witness :
    (docCaptures ("string . Optional . Name. Default: foo.").data = some capsNameFoo ∧
        parse_input_documentation "name" "string . Optional . Name. Default: foo."
          = some (buildParam "name" capsNameFoo) ∧
        (buildParam "name" capsNameFoo).getter_default_arg.isSome = true) ∧
      (buildParam "name" capsNameFoo).is_nullable = false ∧
      (defaultValueOf capsNameFoo).isSome = true :=
  ⟨⟨by decide, by decide, by decide⟩,
    c9_default_literal_invariant "name" "string . Optional . Name. Default: foo."
      capsNameFoo (buildParam "name" capsNameFoo) (by decide) (by decide) (by decide)⟩

/-- Counterexample to C6: a snippet whose line 1 (`notacomment`) is not a
comment line still parses the task identity line, yielding task name
`Foo` and version `2` instead of the placeholders `UnknownTask`/`0` the
claim predicts; only the summary falls back to `N/A`. -/
theorem c6_counterexample :
    parse_yaml_lines "first\nnotacomment\n- task: Foo@2"
      = ⟨"N/A", "Foo", "2", []⟩ := by decide

/-- C6 (amended): if line 1 is present but is not a comment line, the
structural parser does not fail: the summary falls back to the placeholder
`"N/A"` and parsing continues with the remaining lines, from which the
task identity and the parameters are still parsed; the full placeholder
descriptor (name `UnknownTask`, version `0`, no parameters) is produced
only when the respective lines are missing. -/
theorem c6_noncomment_line1_degrades (s : String) (l0 l1 : List Char)
    (rest : List (List Char))
    (h : rustLines s.data = l0 :: l1 :: rest)
    (hnc : stripHashComment l1 = none) :
    parse_yaml_lines s
      = ⟨"N/A", (parseTaskAndInputs rest).1, (parseTaskAndInputs rest).2.1,
          (parseTaskAndInputs rest).2.2⟩ := by
  rw [parse_yaml_lines, h]
  simp only [hnc]

/-- Witness for the amended C6 at the counterexample snippet. -/
theorem c6_noncomment_line1_degrades_witness :
    (rustLines ("first\nnotacomment\n- task: Foo@2").data
        = "first".data :: "notacomment".data :: ["- task: Foo@2".data] ∧
        stripHashComment ("notacomment").data = none) ∧
      parse_yaml_lines "first\nnotacomment\n- task: Foo@2"
        = ⟨"N/A", (parseTaskAndInputs ["- task: Foo@2".data]).1,
            (parseTaskAndInputs ["- task: Foo@2".data]).2.1,
            (parseTaskAndInputs ["- task: Foo@2".data]).2.2⟩ :=
  ⟨⟨by decide, by decide⟩,
    c6_noncomment_line1_degrades "first\nnotacomment\n- task: Foo@2"
      "first".data "notacomment".data ["- task: Foo@2".data] (by decide) (by decide)⟩

/-- C8: every two-line snippet (missing identity line) yields task name
`UnknownTask`, task version `0` and an empty parameter list, with no
error (the embedding of `parse_yaml_lines` is a total function). -/
theorem c8_two_line_snippet (s : String) (h : (rustLines s.data).length = 2) :
    (parse_yaml_lines s).task_name = "UnknownTask"
      ∧ (parse_yaml_lines s).task_version = "0"
      ∧ (parse_yaml_lines s).parameters = [] := by
  obtain ⟨a, b, hl⟩ : ∃ a b, rustLines s.data = [a, b] := by
    cases hrl : rustLines s.data with
    | nil => rw [hrl] at h; simp at h
    | cons a t =>
      cases t with
      | nil => rw [hrl] at h; simp at h
      | cons b u =>
        cases u with
        | nil => exact ⟨a, b, rfl⟩
        | cons c v => rw [hrl] at h; simp at h
  rw [parse_yaml_lines, hl]
  exact ⟨rfl, rfl, rfl⟩

/-- Witness for C8 at the snippet `"a\nb"`. -/
theorem c8_two_line_snippet_witness :
    (rustLines ("a\nb").data).length = 2 ∧
      (parse_yaml_lines "a\nb").task_name = "UnknownTask"
      ∧ (parse_yaml_lines "a\nb").task_version = "0"
      ∧ (parse_yaml_lines "a\nb").parameters = [] :=
  ⟨by decide, c8_two_line_snippet "a\nb" (by decide)⟩

/-- A numeral whose value lies outside the `i32` range is rejected by
`str::parse::<i32>`. -/
theorem parseI32_none_of_outside (s : List Char) (h1 : isNumeralShape s = true)
    (h2 : numeralVal s < -2147483648 ∨ 2147483647 < numeralVal s) :
    parseI32 s = none := by
  have hr : ¬(-2147483648 ≤ numeralVal s ∧ numeralVal s ≤ 2147483647) := by omega
  rw [parseI32, h1]
  simp only [Bool.not_true, Bool.false_eq_true, if_false, Bool.and_eq_true,
    decide_eq_true_eq, ite_eq_right_iff]
  intro hc
  exact absurd hc hr

/-- Quote-escaping is the identity on all-digit strings. -/
theorem escapeDq_digits (s : List Char) (h : s.all Char.isDigit = true) :
    escapeDq s = s := by
  induction s with
  | nil => rfl
  | cons c t ih =>
    rw [List.all_cons, Bool.and_eq_true] at h
    rw [escapeDq, if_neg ?_, ih h.2]
    intro hc
    rw [hc] at h
    exact absurd h.1 (by decide)

/-- Quote-escaping is the identity on numerals. -/
theorem escapeDq_numeral (s : List Char) (h : isNumeralShape s = true) :
    escapeDq s = s := by
  rw [isNumeralShape, Bool.and_eq_true] at h
  obtain ⟨hne, hdig⟩ := h
  cases s with
  | nil => rfl
  | cons c t =>
    rw [signSplit] at hdig
    by_cases hp : c = '+'
    · rw [if_pos hp] at hdig
      rw [hp, escapeDq, if_neg (by decide)]
      rw [escapeDq_digits t hdig]
    · by_cases hm : c = '-'
      · rw [if_neg hp, if_pos hm] at hdig
        rw [hm, escapeDq, if_neg (by decide)]
        rw [escapeDq_digits t hdig]
      · rw [if_neg hp, if_neg hm] at hdig
        exact escapeDq_digits _ hdig

/-- The captures of `"string . Optional . Big. Default: 9999999999."`. -/
def capsBig : DocCaps :=
  ⟨"string ".data, " Optional ".data, none, some " Big".data, some "9999999999".data⟩

/-- C10: the int-sniffing integer check is bounded to the signed 32-bit
range: a documentation of string type whose default value is a base-10
numeral with value outside `[-2147483648, 2147483647]` keeps base type
`string`, and its default is formatted as the quoted string literal of the
numeral. -/
theorem c10_int_sniffing_is_i32 (yaml_name d dv : String) (caps : DocCaps)
    (p : ProcessedParameter)
    (hc : docCaptures d.data = some caps)
    (hp : parse_input_documentation yaml_name d = some p)
    (ht : typeOptionsOf caps = "string")
    (hd : defaultValueOf caps = some dv)
    (hshape : isNumeralShape dv.data = true)
    (hout : numeralVal dv.data < -2147483648 ∨ 2147483647 < numeralVal dv.data) :
    p.base_csharp_type = "string" ∧ p.getter_default_arg = some ("\"" ++ dv ++ "\"") := by
  obtain rfl := parse_some_eq hc hp
  have he : isEnumType caps = false := by rw [isEnumType, ht]; decide
  have hpar : parseI32 dv.data = none := parseI32_none_of_outside _ hshape hout
  have hbase : baseTypeOf yaml_name caps = "string" := by
    rw [baseTypeOf, he, ht, hd]
    simp [hpar]
  have hnull : isNullableOf yaml_name caps = false := by
    rw [isNullableOf, hd]
    simp
  have heo : enumOptionsOf caps = none := by
    rw [enumOptionsOf, he]
    simp
  have hnotbc : ¬ dv = "$(BuildConfiguration)" := by
    intro hv; rw [hv] at hshape; exact absurd hshape (by decide)
  have hnotnupkg : ¬ dv = "$(Build.ArtifactStagingDirectory)/*.nupkg" := by
    intro hv; rw [hv] at hshape; exact absurd hshape (by decide)
  have hnotcsproj : ¬ dv = "**/*.csproj" := by
    intro hv; rw [hv] at hshape; exact absurd hshape (by decide)
  have hnotasd : ¬ dv = "$(Build.ArtifactStagingDirectory)" := by
    intro hv; rw [hv] at hshape; exact absurd hshape (by decide)
  refine ⟨(buildParam_base _ _).trans hbase, ?_⟩
  rw [buildParam_getter, getterDefaultOf, hnull, hd, heo, hbase]
  rw [if_pos (by simp)]
  rw [Option.getD_some]
  rw [format_default_value, if_neg hnotbc, if_neg hnotnupkg, if_neg hnotcsproj,
    if_neg hnotasd, if_pos rfl]
  rw [quoteLit, escapeDq_numeral dv.data hshape]
  rfl

/-- Witness for C10 at `"string . Optional . Big. Default: 9999999999."`. -/
theorem c10_int_sniffing_is_i32_witness :
    (docCaptures ("string . Optional . Big. Default: 9999999999.").data = some capsBig ∧
        parse_input_documentation "big" "string . Optional . Big. Default: 9999999999."
          = some (buildParam "big" capsBig) ∧
        typeOptionsOf capsBig = "string" ∧
        defaultValueOf capsBig = some "9999999999" ∧
        isNumeralShape ("9999999999").data = true ∧
        2147483647 < numeralVal ("9999999999").data) ∧
      (buildParam "big" capsBig).base_csharp_type = "string" ∧
      (buildParam "big" capsBig).getter_default_arg = some ("\"" ++ "9999999999" ++ "\"") :=
  ⟨⟨by decide, by decide, by decide, by decide, by decide, by decide⟩,
    c10_int_sniffing_is_i32 "big" "string . Optional . Big. Default: 9999999999."
      "9999999999" capsBig (buildParam "big" capsBig)
      (by decide) (by decide) (by decide) (by decide) (by decide) (Or.inr (by decide))⟩

end TaskCodegen
